import Mathlib

/-!
Shallow embedding of the CSV-import pipeline, sequence builder and
webhook/upload handlers of the campaign-management app
(src/components/UploadLeadsTab.tsx, src/components/Campaigns.tsx,
src/components/SequenceBuilder.tsx), with theorems checking the
natural-language specification against it.
-/

namespace Sao

/-! ### String primitives

Character-level embeddings of the JS string operations the pipeline uses
(`split` on a one-character separator, `trim`, `toLowerCase` on ASCII,
`replace(/"/g, '')`), written as structural recursion over `List Char`. -/

/-- Embeds `String.split` on a one-character separator, accumulating the current
piece in reverse; mirrors JS `text.split(sep)` including empty pieces. -/
def splitCharAux (sep : Char) : List Char → List Char → List (List Char)
  | [], acc => [acc.reverse]
  | c :: cs, acc =>
    if c == sep then acc.reverse :: splitCharAux sep cs []
    else splitCharAux sep cs (c :: acc)

/-- JS `s.split(sep)` for a one-character separator. -/
def splitChar (sep : Char) (s : String) : List String :=
  (splitCharAux sep s.toList []).map List.asString

/-- JS `s.trim()`: drop whitespace from both ends. -/
def trimStr (s : String) : String :=
  ((((s.toList.dropWhile Char.isWhitespace).reverse).dropWhile Char.isWhitespace).reverse).asString

/-- JS `s.toLowerCase()` on ASCII data. -/
def toLowerStr (s : String) : String :=
  (s.toList.map Char.toLower).asString

/-- Drop every double-quote character (`.replace(/"/g, '')`). -/
def stripQuotes (s : String) : String :=
  (s.toList.filter (fun c => c ≠ '"')).asString

/-- Embeds `cell.trim().replace(/"/g, '')` applied to one CSV cell. -/
def cleanCell (s : String) : String :=
  stripQuotes (trimStr s)

/-- Embeds `csvText.split('\n').filter(line => line.trim())`: the non-blank lines. -/
def csvLines (t : String) : List String :=
  (splitChar '\n' t).filter (fun l => trimStr l ≠ "")

/-- Embeds `line.split(',').map(c => c.trim().replace(/"/g, ''))`. -/
def splitLine (l : String) : List String :=
  (splitChar ',' l).map cleanCell

/-! ### Preview generation (`parseCSVForPreview`) -/

structure CSVPreview where
  headers : List String
  rows : List (List String)
  totalRows : Nat
deriving Repr, DecidableEq

/-- Embeds `parseCSVForPreview` from UploadLeadsTab.tsx (identical in
Campaigns.tsx): first non-blank line as headers, next five non-blank lines
as preview rows, `totalRows = lines.length - 1`. -/
def parseCSVForPreview (t : String) : CSVPreview :=
  match csvLines t with
  | [] => ⟨[], [], 0⟩
  | hline :: rest =>
    ⟨splitLine hline, (rest.take 5).map splitLine, rest.length⟩

/-! ### Database columns and the auto-mapper (`handleFileSelect`) -/

inductive DbField
  | name | phone | email | company_name | job_title | source_url | source_platform
deriving Repr, DecidableEq

/-- The `key` of each entry of `DATABASE_COLUMNS` (all lower-case in the
source, so `dbCol.key.toLowerCase()` is the key itself). -/
def DbField.key : DbField → String
  | .name => "name"
  | .phone => "phone"
  | .email => "email"
  | .company_name => "company_name"
  | .job_title => "job_title"
  | .source_url => "source_url"
  | .source_platform => "source_platform"

/-- The seven database fields, in the fixed order of `DATABASE_COLUMNS`. -/
def DATABASE_COLUMNS : List DbField :=
  [.name, .phone, .email, .company_name, .job_title, .source_url, .source_platform]

/-- Does `sub` start the list `l`? -/
def startsWith : List Char → List Char → Bool
  | _, [] => true
  | [], _ :: _ => false
  | c :: cs, d :: ds => c == d && startsWith cs ds

/-- Does `sub` occur contiguously in `l`?  (JS `String.includes`.) -/
def containsSeq : List Char → List Char → Bool
  | [], sub => sub.isEmpty
  | c :: cs, sub => startsWith (c :: cs) sub || containsSeq cs sub

/-- Embeds `s.includes(sub)` on strings. -/
def strIncludes (s sub : String) : Bool :=
  containsSeq s.toList sub.toList

/-- The `switch (dbCol.key)` keyword tests of `handleFileSelect`, applied to
the lower-cased header. -/
def keywordMatch (f : DbField) (lh : String) : Bool :=
  match f with
  | .name =>
      strIncludes lh "name" || strIncludes lh "full_name" || strIncludes lh "first_name"
  | .phone =>
      strIncludes lh "phone" || strIncludes lh "mobile" || strIncludes lh "number" || lh == "tel"
  | .email =>
      strIncludes lh "email" || strIncludes lh "mail" || lh == "e-mail"
  | .company_name =>
      strIncludes lh "company" || strIncludes lh "organization" || strIncludes lh "org"
  | .job_title =>
      strIncludes lh "title" || strIncludes lh "position" || strIncludes lh "job" || strIncludes lh "role"
  | .source_url =>
      strIncludes lh "url" || strIncludes lh "website" || strIncludes lh "link"
  | .source_platform =>
      strIncludes lh "platform" || strIncludes lh "source" || strIncludes lh "site"

/-- The header predicate of `handleFileSelect`: exact lower-cased key match,
or the field's keyword test. -/
def fieldMatches (f : DbField) (header : String) : Bool :=
  let lh := toLowerStr header
  (lh == f.key) || keywordMatch f lh

/-- A column mapping: `(db column, csv column)` pairs in insertion order,
mirroring `Object.entries(columnMapping)`. -/
abbrev ColumnMapping : Type := List (DbField × String)

/-- Embeds `autoMapping` built by `handleFileSelect`: for each database column in
order, the first header passing `fieldMatches` is recorded. -/
def autoMappingList (headers : List String) : ColumnMapping :=
  DATABASE_COLUMNS.foldl
    (fun acc f =>
      match headers.find? (fun h => fieldMatches f h) with
      | some h => acc ++ [(f, h)]
      | none => acc)
    []

/-- First binding of a field in a column mapping (JS object read). -/
def lookupField (m : ColumnMapping) (f : DbField) : Option String :=
  match m with
  | [] => none
  | e :: rest => if e.1 = f then some e.2 else lookupField rest f

/-! ### Row processing (`processCSVWithMapping`) -/

/-- A lead built from one CSV row; a field is `some v` exactly when the
mapped cell existed and was non-empty (JS truthiness). -/
structure Lead where
  name : Option String := none
  phone : Option String := none
  email : Option String := none
  company_name : Option String := none
  job_title : Option String := none
  source_url : Option String := none
  source_platform : Option String := none
deriving Repr, DecidableEq

def Lead.get (l : Lead) : DbField → Option String
  | .name => l.name
  | .phone => l.phone
  | .email => l.email
  | .company_name => l.company_name
  | .job_title => l.job_title
  | .source_url => l.source_url
  | .source_platform => l.source_platform

def Lead.set (l : Lead) (f : DbField) (v : String) : Lead :=
  match f with
  | .name => { l with name := some v }
  | .phone => { l with phone := some v }
  | .email => { l with email := some v }
  | .company_name => { l with company_name := some v }
  | .job_title => { l with job_title := some v }
  | .source_url => { l with source_url := some v }
  | .source_platform => { l with source_platform := some v }

/-- Embeds `headers.indexOf(csvColumn)` followed by `values[csvIndex]`, kept only
when the cell exists and is truthy (non-empty). -/
def lookupCell (headers values : List String) (col : String) : Option String :=
  match headers.findIdx? (fun h => h = col) with
  | none => none
  | some i =>
    match values.get? i with
    | none => none
    | some v => if v = "" then none else some v

/-- The body of the `Object.entries(columnMapping).forEach` callback of
`processCSVWithMapping`: skip unmapped columns (`if (csvColumn)`), then
assign the cell when it exists and is truthy. -/
def applyMapEntry (headers values : List String) (acc : Lead) (e : DbField × String) : Lead :=
  if e.2 ≠ "" then
    match lookupCell headers values e.2 with
    | some v => acc.set e.1 v
    | none => acc
  else acc

/-- The `Object.entries(columnMapping).forEach` loop of
`processCSVWithMapping` building one lead from one row of values. -/
def buildLead (mapping : ColumnMapping) (headers values : List String) : Lead :=
  mapping.foldl (applyMapEntry headers values) {}

/-- Embeds `lead.name || lead.phone || lead.email` (fields are only ever set to
non-empty strings, so JS truthiness is presence). -/
def isValid (l : Lead) : Bool :=
  l.name.isSome || l.phone.isSome || l.email.isSome

/-- The error message pushed for an invalid row `i` of the lines array
(the source uses `i + 1` as the reported row number). -/
def rowError (rowNum : Nat) : String :=
  "Row " ++ toString rowNum ++ ": Missing required data (name, phone, or email)"

structure ProcessResult where
  leads : List Lead
  errors : List String
deriving Repr, DecidableEq

/-- The `for (let i = 1; i < lines.length; i++)` loop: `rowNum` is the
reported row number of the first line of `ds` (2 for the first data row). -/
def processRows (mapping : ColumnMapping) (headers : List String) :
    List String → Nat → ProcessResult
  | [], _ => ⟨[], []⟩
  | l :: ls, rowNum =>
    let rest := processRows mapping headers ls (rowNum + 1)
    let lead := buildLead mapping headers (splitLine l)
    if isValid lead then ⟨lead :: rest.leads, rest.errors⟩
    else ⟨rest.leads, rowError rowNum :: rest.errors⟩

/-- Embeds `processCSVWithMapping` from UploadLeadsTab.tsx (identical in
Campaigns.tsx): early return for fewer than two non-blank lines, else the
row loop over the data lines. -/
def processCSVWithMapping (mapping : ColumnMapping) (t : String) : ProcessResult :=
  match csvLines t with
  | [] => ⟨[], []⟩
  | hline :: ds =>
    if ds.isEmpty then ⟨[], []⟩
    else processRows mapping (splitLine hline) ds 2

/-! ### Lead upload (`handleFileUpload` of UploadLeadsTab.tsx) -/

/-- One row of the `leadsToInsert` array sent to `uploaded_leads`. -/
structure InsertRow where
  user_id : String
  campaign_id : String
  name : String
  phone : String
  email : String
  company_name : String
  job_title : String
  source_url : String
  source_platform : String
  status : String
deriving Repr, DecidableEq

/-- Embeds `leads.map(lead => ({...}))`: missing fields become `''`, the status is
always `'pending'`. -/
def toInsertRow (uid cid : String) (l : Lead) : InsertRow where
  user_id := uid
  campaign_id := cid
  name := l.name.getD ""
  phone := l.phone.getD ""
  email := l.email.getD ""
  company_name := l.company_name.getD ""
  job_title := l.job_title.getD ""
  source_url := l.source_url.getD ""
  source_platform := l.source_platform.getD ""
  status := "pending"

/-- What `handleFileUpload` decides to do after processing the CSV: either
report failure without touching the database, or insert the built rows. -/
inductive UploadAction
  | failNoLeads (message : String) (errors : List String)
  | insert (rows : List InsertRow)
deriving Repr, DecidableEq

/-- Embeds `handleFileUpload` from UploadLeadsTab.tsx up to the database call:
empty lead list short-circuits with the failure banner and no insert. -/
def handleFileUpload (mapping : ColumnMapping) (uid cid : String) (t : String) :
    UploadAction :=
  let r := processCSVWithMapping mapping t
  if r.leads.isEmpty then
    .failNoLeads "No valid leads found in CSV file."
      ("Please ensure at least one row has name, phone, or email data" :: r.errors)
  else
    .insert (r.leads.map (toInsertRow uid cid))

/-! ### EditCampaign upload and webhooks (Campaigns.tsx) -/

/-- Outcome of the `uploaded_leads` insert observed by the handler. -/
inductive DbOutcome
  | ok
  | err (msg : String)
deriving Repr, DecidableEq

/-- Outcome of one webhook `fetch` POST as observed by the handler. -/
inductive WebhookOutcome
  | ok
  | badStatus (code : Nat)
  | thrown (msg : String)
deriving Repr, DecidableEq

/-- The `UploadResult` banner state set by the handlers. -/
structure UploadResult where
  success : Bool
  message : String
  leadsCount : Option Nat := none
  errors : List String := []
deriving Repr, DecidableEq

/-- Backend side effects a handler performs, in program order. -/
inductive Effect
  | dbInsertLeads (rows : List InsertRow)
  | webhookPost (url : String)
deriving Repr, DecidableEq

def startCampaignUploadUrl : String :=
  "https://mazirhx.app.n8n.cloud/webhook/start-campaign-upload"

def channelsEngineUrl : String :=
  "https://mazirhx.app.n8n.cloud/webhook/channels-engine"

/-- The `webhookError` string computed in EditCampaign's `handleFileUpload`
for a failed webhook call. -/
def webhookFailureDetail : WebhookOutcome → Option String
  | .ok => none
  | .badStatus code => some ("Webhook failed with status: " ++ toString code)
  | .thrown msg => some ("Webhook error: " ++ msg)

/-- Embeds `handleFileUpload` from EditCampaign (Campaigns.tsx): process the CSV,
bail out with a failure banner when no lead is valid, otherwise insert into
`uploaded_leads`; only when the insert succeeded, POST the
start-campaign-upload webhook, and report success regardless of the webhook
outcome, appending a note when it failed.  Returns the banner and the list
of backend effects in program order. -/
def editCampaignUpload (mapping : ColumnMapping) (uid cid : String) (t : String)
    (db : DbOutcome) (wh : WebhookOutcome) : UploadResult × List Effect :=
  let r := processCSVWithMapping mapping t
  if r.leads.isEmpty then
    ({ success := false
       message := "No valid leads found in CSV file."
       errors := "Please ensure at least one row has name, phone, or email data" :: r.errors },
     [])
  else
    let rows := r.leads.map (toInsertRow uid cid)
    match db with
    | .err msg =>
      ({ success := false
         message := "Failed to upload leads to database."
         errors := ["Database error: " ++ msg] },
       [.dbInsertLeads rows])
    | .ok =>
      let banner : UploadResult :=
        { success := true
          message := "Successfully uploaded " ++ toString r.leads.length ++ " leads to the database!"
          leadsCount := some r.leads.length
          errors :=
            match webhookFailureDetail wh with
            | none => []
            | some detail =>
              ["Note: Leads saved to database successfully, but automation webhook failed.",
               detail] }
      (banner, [.dbInsertLeads rows, .webhookPost startCampaignUploadUrl])

/-- Embeds `triggerChannelsEngine` from EditCampaign: one POST; a non-ok response
throws and is caught, so any failure yields the same failure banner. -/
def triggerChannelsEngine (_uid _cid : String) (wh : WebhookOutcome) :
    UploadResult × List Effect :=
  let banner : UploadResult :=
    match wh with
    | .ok => { success := true, message := "Channels engine triggered successfully!" }
    | _ => { success := false, message := "Failed to trigger channels engine. Please try again." }
  (banner, [.webhookPost channelsEngineUrl])

/-- Number of webhook POSTs in an effect trace. -/
def countWebhookPosts (effs : List Effect) : Nat :=
  (effs.filter (fun e => match e with | .webhookPost _ => true | _ => false)).length

/-! ### Sequence builder (SequenceBuilder.tsx) -/

inductive MessageType
  | call | sms | whatsapp | email
deriving Repr, DecidableEq

structure SequenceStep where
  step_number : Nat
  message_type : MessageType
  message_content : String
  delay_hours : Int
  conditions : Option String := none
deriving Repr, DecidableEq

/-- The initial `steps` state: a single call step numbered 1. -/
def initialSteps : List SequenceStep :=
  [{ step_number := 1, message_type := .call, message_content := "", delay_hours := 0 }]

/-- Embeds `addStep`: append an sms step numbered `steps.length + 1`. -/
def addStep (steps : List SequenceStep) : List SequenceStep :=
  steps ++ [{ step_number := steps.length + 1
              message_type := .sms
              message_content := ""
              delay_hours := 24 }]

/-- The `newSteps.map((step, i) => ({ ...step, step_number: i + 1 }))`
renumbering pass; `k` is the zero-based position of the first element. -/
def renumberFrom (k : Nat) : List SequenceStep → List SequenceStep
  | [] => []
  | s :: rest => { s with step_number := k + 1 } :: renumberFrom (k + 1) rest

/-- Embeds `removeStep`: drop the element at `index` (keep everything when the
index is out of range, like the JS filter) and renumber. -/
def removeStep (steps : List SequenceStep) (index : Nat) : List SequenceStep :=
  renumberFrom 0 ((steps.enum.filter (fun p => p.1 ≠ index)).map Prod.snd)

/-- The step numbers in list order. -/
def stepNumbers (steps : List SequenceStep) : List Nat :=
  steps.map (fun s => s.step_number)

/-- The numbering invariant: step numbers are `1, 2, ..., n` in order. -/
def wellNumbered (steps : List SequenceStep) : Prop :=
  stepNumbers steps = List.range' 1 steps.length

instance (steps : List SequenceStep) : Decidable (wellNumbered steps) := by
  unfold wellNumbered
  infer_instance

/-! ### `saveSequence` and the `campaign_sequences` table -/

/-- One stored row of `campaign_sequences`. -/
structure SequenceRow where
  campaign_id : String
  step_number : Nat
  message_type : MessageType
  message_content : String
  delay_hours : Int
  conditions : Option String
deriving Repr, DecidableEq

/-- Embeds `conditions: step.conditions || null`: absent or empty becomes null. -/
def normalizeConditions : Option String → Option String
  | none => none
  | some c => if c = "" then none else some c

/-- One element of `stepsToInsert`. -/
def stepToRow (cid : String) (s : SequenceStep) : SequenceRow where
  campaign_id := cid
  step_number := s.step_number
  message_type := s.message_type
  message_content := s.message_content
  delay_hours := s.delay_hours
  conditions := normalizeConditions s.conditions

/-- Embeds `saveSequence` as a transition on the `campaign_sequences` table: first
delete every row of the campaign, then insert the current steps; when the
insert fails nothing is added (and the deleted rows are not restored). -/
def saveSequence (table : List SequenceRow) (cid : String)
    (steps : List SequenceStep) (insertOk : Bool) : List SequenceRow :=
  let afterDelete := table.filter (fun r => r.campaign_id ≠ cid)
  if insertOk then afterDelete ++ steps.map (stepToRow cid)
  else afterDelete

/-! ### Backend-event traces of the view handlers (success paths) -/

inductive UIEvent
  | dbMutation (table op : String)
  | refetch (target : String)
  | localUpdate (what : String)
  | banner (success : Bool)
deriving Repr, DecidableEq

def isMutationB : UIEvent → Bool
  | .dbMutation _ _ => true
  | _ => false

def isRefetchB : UIEvent → Bool
  | .refetch _ => true
  | _ => false

/-- Every database mutation in the trace is followed, later in the trace,
by some re-fetch. -/
def mutationFollowedByRefetch : List UIEvent → Bool
  | [] => true
  | e :: rest =>
    (if isMutationB e then rest.any isRefetchB else true) && mutationFollowedByRefetch rest

/-- Embeds `Campaigns.handleCreateCampaign`, success path: insert then
`fetchCampaigns()`. -/
def createCampaignSuccessTrace : List UIEvent :=
  [.dbMutation "campaigns" "insert", .refetch "campaigns"]

/-- Embeds `Campaigns.handleDeleteCampaign`, success path: delete then
`fetchCampaigns()`. -/
def deleteCampaignSuccessTrace : List UIEvent :=
  [.dbMutation "campaigns" "delete", .refetch "campaigns"]

/-- Embeds `UploadLeadsTab.handleFileUpload`, success path: insert, banner, then
`fetchExistingLeads()`. -/
def uploadLeadsSuccessTrace : List UIEvent :=
  [.dbMutation "uploaded_leads" "insert", .banner true, .refetch "uploaded_leads"]

/-- Embeds `UploadLeadsTab.deleteLead`, success path: delete then
`fetchExistingLeads()`. -/
def deleteLeadSuccessTrace : List UIEvent :=
  [.dbMutation "uploaded_leads" "delete", .refetch "uploaded_leads"]

/-- Embeds `EditCampaign.handleSubmit`, success path: update then only the success
banner — no re-fetch. -/
def editSubmitSuccessTrace : List UIEvent :=
  [.dbMutation "campaigns" "update", .banner true]

/-- Embeds `EditCampaign.handlePublish`, success path: update, patch the local
campaign state, banner — no re-fetch. -/
def editPublishSuccessTrace : List UIEvent :=
  [.dbMutation "campaigns" "update", .localUpdate "campaign.status", .banner true]

/-! ## Helper lemmas -/

theorem processRows_count (mapping : ColumnMapping) (headers : List String)
    (ds : List String) (n : Nat) :
    (processRows mapping headers ds n).leads.length
      + (processRows mapping headers ds n).errors.length = ds.length := by
  induction ds generalizing n with
  | nil => rfl
  | cons l ls ih =>
    simp only [processRows]
    by_cases h : isValid (buildLead mapping headers (splitLine l)) = true <;>
      simp [h, ← ih (n + 1)] <;> omega

theorem processRows_leads (mapping : ColumnMapping) (headers : List String)
    (ds : List String) (n : Nat) :
    (processRows mapping headers ds n).leads
      = ds.filterMap (fun l =>
          let ld := buildLead mapping headers (splitLine l)
          if isValid ld then some ld else none) := by
  induction ds generalizing n with
  | nil => rfl
  | cons l ls ih =>
    simp only [processRows, List.filterMap_cons]
    by_cases h : isValid (buildLead mapping headers (splitLine l)) = true <;>
      simp [h, ih (n + 1)]

theorem processRows_errors (mapping : ColumnMapping) (headers : List String)
    (ds : List String) (n : Nat) :
    (processRows mapping headers ds n).errors
      = (List.enumFrom n ds).filterMap (fun p =>
          if isValid (buildLead mapping headers (splitLine p.2)) then none
          else some (rowError p.1)) := by
  induction ds generalizing n with
  | nil => rfl
  | cons l ls ih =>
    simp only [processRows, List.enumFrom_cons, List.filterMap_cons]
    by_cases h : isValid (buildLead mapping headers (splitLine l)) = true <;>
      simp [h, ih (n + 1)]

theorem foldl_mapping (headers : List String) (fs : List DbField) (acc : ColumnMapping) :
    fs.foldl
      (fun acc f =>
        match headers.find? (fun h => fieldMatches f h) with
        | some h => acc ++ [(f, h)]
        | none => acc)
      acc
    = acc ++ fs.filterMap (fun f => (headers.find? (fieldMatches f)).map (fun h => (f, h))) := by
  induction fs generalizing acc with
  | nil => simp
  | cons f fs ih =>
    simp only [List.foldl_cons, List.filterMap_cons]
    cases h : headers.find? (fun h => fieldMatches f h) with
    | none => simp [h, ih]
    | some hd => simp [h, ih]

theorem autoMappingList_eq (headers : List String) :
    autoMappingList headers
      = DATABASE_COLUMNS.filterMap
          (fun f => (headers.find? (fieldMatches f)).map (fun h => (f, h))) := by
  simpa using foldl_mapping headers DATABASE_COLUMNS []

theorem lookupField_build (headers : List String) (fs : List DbField) (f : DbField) :
    lookupField
      (fs.filterMap (fun g => (headers.find? (fieldMatches g)).map (fun h => (g, h)))) f
    = if f ∈ fs then headers.find? (fieldMatches f) else none := by
  induction fs with
  | nil => simp [lookupField]
  | cons g gs ih =>
    simp only [List.filterMap_cons]
    cases hg : headers.find? (fieldMatches g) with
    | none =>
      by_cases hfg : f = g
      · subst hfg
        simp [ih, hg]
      · simp [ih, hfg]
    | some hd =>
      simp only [Option.map_some']
      simp only [lookupField]
      by_cases hgf : g = f
      · subst hgf
        simp [hg]
      · have hne : ¬ f = g := fun hq => hgf hq.symm
        simp [hgf, ih, hne]

theorem lookupCell_nonempty (headers values : List String) (col v : String) :
    lookupCell headers values col = some v → v ≠ "" := by
  unfold lookupCell
  intro h
  split at h
  · simp at h
  · split at h
    · simp at h
    · split at h
      · simp at h
      · rename_i hw
        simp only [Option.some.injEq] at h
        subst h
        exact hw

theorem set_get (acc : Lead) (f g : DbField) (v : String) :
    (acc.set f v).get g = if g = f then some v else acc.get g := by
  cases f <;> cases g <;> simp [Lead.set, Lead.get]

theorem buildLead_aux_nonempty (headers values : List String) (m : ColumnMapping)
    (acc : Lead) (hacc : ∀ f v, acc.get f = some v → v ≠ "") :
    ∀ f v, (m.foldl (applyMapEntry headers values) acc).get f = some v → v ≠ "" := by
  induction m generalizing acc with
  | nil => exact hacc
  | cons e rest ih =>
    simp only [List.foldl_cons]
    apply ih
    intro f v hf
    unfold applyMapEntry at hf
    by_cases he : e.2 = ""
    · simp [he] at hf
      exact hacc f v hf
    · simp [he] at hf
      cases hc : lookupCell headers values e.2 with
      | none => rw [hc] at hf; exact hacc f v hf
      | some w =>
        rw [hc] at hf
        rw [set_get] at hf
        by_cases hfe : f = e.1
        · simp [hfe] at hf
          rw [← hf]
          exact lookupCell_nonempty headers values e.2 w hc
        · simp [hfe] at hf
          exact hacc f v hf

/-- Every field `buildLead` sets holds a non-empty mapped cell value. -/
theorem buildLead_nonempty (mapping : ColumnMapping) (headers values : List String)
    (f : DbField) (v : String) :
    (buildLead mapping headers values).get f = some v → v ≠ "" := by
  apply buildLead_aux_nonempty
  intro g w hg
  cases g <;> simp [Lead.get] at hg

theorem renumberFrom_length (k : Nat) (l : List SequenceStep) :
    (renumberFrom k l).length = l.length := by
  induction l generalizing k with
  | nil => rfl
  | cons s rest ih => simp [renumberFrom, ih]

theorem renumberFrom_numbers (k : Nat) (l : List SequenceStep) :
    stepNumbers (renumberFrom k l) = List.range' (k + 1) l.length := by
  induction l generalizing k with
  | nil => rfl
  | cons s rest ih =>
    simp [renumberFrom, stepNumbers, List.range'_succ] at *
    exact ih (k + 1)

/-! ## Claim theorems -/

/-- C2: CSV parsing is naive quote-stripping with no escaping of quoted
delimiters: the parser splits the text on newline characters, discards
lines blank after trimming, splits every remaining line on every comma,
and removes all double-quote characters from each cell after trimming it;
consequently a quoted field containing a comma is split at that comma. -/
theorem c2_naive_csv_parsing (t l : String) :
    csvLines t = (splitChar '\n' t).filter (fun s => trimStr s ≠ "") ∧
    splitLine l = (splitChar ',' l).map (fun c => stripQuotes (trimStr c)) ∧
    (parseCSVForPreview t).headers = ((csvLines t).head?.map splitLine).getD [] ∧
    splitLine "\"hello, world\"" = ["hello", "world"] := by
  refine ⟨rfl, rfl, ?_, by decide⟩
  cases h : csvLines t with
  | nil => unfold parseCSVForPreview; rw [h]; rfl
  | cons a rest => unfold parseCSVForPreview; rw [h]; rfl

/-- C3: the column auto-mapper maps each of the seven database fields,
taken in the fixed `DATABASE_COLUMNS` order, to the first CSV header whose
lower-cased form equals the field key or passes that field's keyword test
(for phone: contains "phone", "mobile" or "number", or equals "tel"); a
field with no matching header stays unmapped. -/
theorem c3_auto_mapper (headers : List String) (f : DbField) (header : String) :
    lookupField (autoMappingList headers) f = headers.find? (fieldMatches f) ∧
    autoMappingList headers
      = DATABASE_COLUMNS.filterMap
          (fun g => (headers.find? (fieldMatches g)).map (fun h => (g, h))) ∧
    fieldMatches f header
      = ((toLowerStr header == f.key) || keywordMatch f (toLowerStr header)) ∧
    keywordMatch DbField.phone (toLowerStr header)
      = (strIncludes (toLowerStr header) "phone"
          || strIncludes (toLowerStr header) "mobile"
          || strIncludes (toLowerStr header) "number"
          || (toLowerStr header == "tel")) := by
  refine ⟨?_, autoMappingList_eq headers, rfl, rfl⟩
  rw [autoMappingList_eq, lookupField_build]
  have hf : f ∈ DATABASE_COLUMNS := by cases f <;> simp [DATABASE_COLUMNS]
  simp [hf]

/-- C6: preview generation returns the first non-blank line's cells as
headers, at most the first five subsequent non-blank lines as rows, and
`totalRows` equal to the number of non-blank lines minus one — counting
the data rows that later fail validation; with no non-blank lines it
returns empty headers, empty rows and `totalRows = 0`. -/
theorem c6_preview_generation (mapping : ColumnMapping) (t : String) :
    (csvLines t = [] → parseCSVForPreview t = ⟨[], [], 0⟩) ∧
    (∀ hline rest, csvLines t = hline :: rest →
      (parseCSVForPreview t).headers = splitLine hline ∧
      (parseCSVForPreview t).rows = (rest.take 5).map splitLine ∧
      (parseCSVForPreview t).totalRows = rest.length) ∧
    (parseCSVForPreview t).rows.length ≤ 5 ∧
    (parseCSVForPreview t).totalRows
      = (processCSVWithMapping mapping t).leads.length
        + (processCSVWithMapping mapping t).errors.length := by
  refine ⟨?_, ?_, ?_, ?_⟩
  · intro h
    unfold parseCSVForPreview
    rw [h]
  · intro hline rest h
    unfold parseCSVForPreview
    rw [h]
    exact ⟨rfl, rfl, rfl⟩
  · cases h : csvLines t with
    | nil => unfold parseCSVForPreview; rw [h]; simp
    | cons a rest =>
      unfold parseCSVForPreview
      rw [h]
      simp
  · cases h : csvLines t with
    | nil => unfold parseCSVForPreview processCSVWithMapping; rw [h]; rfl
    | cons a rest =>
      unfold parseCSVForPreview processCSVWithMapping
      rw [h]
      cases rest with
      | nil => rfl
      | cons b bs =>
        simpa using (processRows_count mapping (splitLine a) (b :: bs) 2).symm

/-- Witness for C6 at a concrete two-line CSV. -/
theorem c6_preview_generation_witness :
    (parseCSVForPreview "a,b\n1,2").headers = ["a", "b"] ∧
    (parseCSVForPreview "a,b\n1,2").totalRows = 1 :=
  ⟨by
    have h := ((c6_preview_generation [] "a,b\n1,2").2.1 "a,b" ["1,2"] (by decide)).1
    rw [h]; decide,
   by
    have h := ((c6_preview_generation [] "a,b\n1,2").2.1 "a,b" ["1,2"] (by decide)).2.2
    rw [h]; rfl⟩

/-- C1: row validation happens before database insertion: every non-blank
data row lands in exactly one of the lead list (when the mapped name, phone
or email cell is non-empty) or the error list (with a message naming the
row), and `handleFileUpload` inserts into `uploaded_leads` only when at
least one lead exists, otherwise reporting failure with no insert. -/
theorem c1_validation_before_insert (mapping : ColumnMapping) (uid cid t : String) :
    (∀ hline ds, csvLines t = hline :: ds →
      (processCSVWithMapping mapping t).leads
        = ds.filterMap (fun l =>
            let ld := buildLead mapping (splitLine hline) (splitLine l)
            if isValid ld then some ld else none) ∧
      (processCSVWithMapping mapping t).errors
        = (List.enumFrom 2 ds).filterMap (fun p =>
            if isValid (buildLead mapping (splitLine hline) (splitLine p.2)) then none
            else some (rowError p.1))) ∧
    ((processCSVWithMapping mapping t).leads = [] →
      handleFileUpload mapping uid cid t
        = UploadAction.failNoLeads "No valid leads found in CSV file."
            ("Please ensure at least one row has name, phone, or email data"
              :: (processCSVWithMapping mapping t).errors)) ∧
    ((processCSVWithMapping mapping t).leads ≠ [] →
      handleFileUpload mapping uid cid t
        = UploadAction.insert
            ((processCSVWithMapping mapping t).leads.map (toInsertRow uid cid))) := by
  refine ⟨?_, ?_, ?_⟩
  · intro hline ds h
    unfold processCSVWithMapping
    rw [h]
    cases ds with
    | nil => exact ⟨rfl, rfl⟩
    | cons b bs =>
      simp only [List.isEmpty_cons, if_neg Bool.false_ne_true]
      exact ⟨processRows_leads mapping (splitLine hline) (b :: bs) 2,
             processRows_errors mapping (splitLine hline) (b :: bs) 2⟩
  · intro h
    unfold handleFileUpload
    simp [h]
  · intro h
    have h' : (processCSVWithMapping mapping t).leads.isEmpty = false := by
      cases hq : (processCSVWithMapping mapping t).leads with
      | nil => exact absurd hq h
      | cons a as => rfl
    unfold handleFileUpload
    simp [h']

/-- Witness for C1: a CSV whose only data row is blank cells is rejected
with no insert, and a CSV with a name cell is inserted. -/
theorem c1_validation_before_insert_witness :
    handleFileUpload [(DbField.name, "name")] "u" "c" "name\n,"
      = UploadAction.failNoLeads "No valid leads found in CSV file."
          ("Please ensure at least one row has name, phone, or email data"
            :: (processCSVWithMapping [(DbField.name, "name")] "name\n,").errors) ∧
    handleFileUpload [(DbField.name, "name")] "u" "c" "name\nAlice"
      = UploadAction.insert
          ((processCSVWithMapping [(DbField.name, "name")] "name\nAlice").leads.map
            (toInsertRow "u" "c")) ∧
    (processCSVWithMapping [(DbField.name, "name")] "name\n,").leads
      = List.filterMap
          (fun l =>
            let ld := buildLead [(DbField.name, "name")] (splitLine "name") (splitLine l)
            if isValid ld then some ld else none)
          [","] :=
  ⟨(c1_validation_before_insert [(DbField.name, "name")] "u" "c" "name\n,").2.1 (by decide),
   (c1_validation_before_insert [(DbField.name, "name")] "u" "c" "name\nAlice").2.2 (by decide),
   ((c1_validation_before_insert [(DbField.name, "name")] "u" "c" "name\n,").1
      "name" [","] (by decide)).1⟩

/-- C10: every row the CSV upload inserts has `status = 'pending'`, the
authenticated user's id, the current campaign's id, and each of the seven
mapped fields equal to the mapped cell value when present (such values are
never empty) and to the empty string otherwise. -/
theorem c10_uploaded_lead_row_shape (mapping : ColumnMapping) (uid cid t : String)
    (rows : List InsertRow) (row : InsertRow) :
    (handleFileUpload mapping uid cid t = UploadAction.insert rows → row ∈ rows →
      row.status = "pending" ∧ row.user_id = uid ∧ row.campaign_id = cid ∧
      ∃ l ∈ (processCSVWithMapping mapping t).leads,
        row.name = l.name.getD "" ∧ row.phone = l.phone.getD "" ∧
        row.email = l.email.getD "" ∧ row.company_name = l.company_name.getD "" ∧
        row.job_title = l.job_title.getD "" ∧ row.source_url = l.source_url.getD "" ∧
        row.source_platform = l.source_platform.getD "") ∧
    (∀ headers values f v, (buildLead mapping headers values).get f = some v → v ≠ "") := by
  constructor
  · intro hup hmem
    unfold handleFileUpload at hup
    by_cases hl : (processCSVWithMapping mapping t).leads.isEmpty = true
    · rw [if_pos hl] at hup
      exact absurd hup (by simp)
    · rw [if_neg hl] at hup
      simp only [UploadAction.insert.injEq] at hup
      subst hup
      rcases List.mem_map.mp hmem with ⟨l, hlmem, hrow⟩
      subst hrow
      exact ⟨rfl, rfl, rfl, l, hlmem, rfl, rfl, rfl, rfl, rfl, rfl, rfl⟩
  · intro headers values f v
    exact buildLead_nonempty mapping headers values f v

/-- Witness for C10 at a one-lead CSV. -/
theorem c10_uploaded_lead_row_shape_witness :
    (toInsertRow "u" "c" { name := some "Alice" }).status = "pending" ∧
    (toInsertRow "u" "c" { name := some "Alice" }).user_id = "u" ∧
    (toInsertRow "u" "c" { name := some "Alice" }).campaign_id = "c" ∧
    ∃ l ∈ (processCSVWithMapping [(DbField.name, "name")] "name\nAlice").leads,
      (toInsertRow "u" "c" { name := some "Alice" }).name = l.name.getD "" ∧
      (toInsertRow "u" "c" { name := some "Alice" }).phone = l.phone.getD "" ∧
      (toInsertRow "u" "c" { name := some "Alice" }).email = l.email.getD "" ∧
      (toInsertRow "u" "c" { name := some "Alice" }).company_name = l.company_name.getD "" ∧
      (toInsertRow "u" "c" { name := some "Alice" }).job_title = l.job_title.getD "" ∧
      (toInsertRow "u" "c" { name := some "Alice" }).source_url = l.source_url.getD "" ∧
      (toInsertRow "u" "c" { name := some "Alice" }).source_platform = l.source_platform.getD "" :=
  (c10_uploaded_lead_row_shape [(DbField.name, "name")] "u" "c" "name\nAlice"
      ((processCSVWithMapping [(DbField.name, "name")] "name\nAlice").leads.map
        (toInsertRow "u" "c"))
      (toInsertRow "u" "c" { name := some "Alice" })).1
    (by decide) (by decide)

/-- C4: webhook failures are non-fatal after a successful database write:
when the `uploaded_leads` insert succeeds and the start-campaign-upload
POST fails (bad status or thrown), EditCampaign still reports success with
the leads count, the webhook failure appearing only as a note in the
errors list. -/
theorem c4_webhook_nonfatal (mapping : ColumnMapping) (uid cid t : String)
    (wh : WebhookOutcome)
    (hleads : (processCSVWithMapping mapping t).leads ≠ [])
    (hwh : wh ≠ WebhookOutcome.ok) :
    (editCampaignUpload mapping uid cid t DbOutcome.ok wh).1.success = true ∧
    (editCampaignUpload mapping uid cid t DbOutcome.ok wh).1.leadsCount
      = some (processCSVWithMapping mapping t).leads.length ∧
    ∃ detail, webhookFailureDetail wh = some detail ∧
      (editCampaignUpload mapping uid cid t DbOutcome.ok wh).1.errors
        = ["Note: Leads saved to database successfully, but automation webhook failed.",
           detail] := by
  have h' : (processCSVWithMapping mapping t).leads.isEmpty = false := by
    cases hq : (processCSVWithMapping mapping t).leads with
    | nil => exact absurd hq hleads
    | cons a as => rfl
  cases wh with
  | ok => exact absurd rfl hwh
  | badStatus code =>
    unfold editCampaignUpload
    simp [h', webhookFailureDetail]
  | thrown msg =>
    unfold editCampaignUpload
    simp [h', webhookFailureDetail]

/-- Witness for C4: one valid lead, webhook returns status 500. -/
theorem c4_webhook_nonfatal_witness :
    (editCampaignUpload [(DbField.name, "name")] "u" "c" "name\nAlice"
        DbOutcome.ok (WebhookOutcome.badStatus 500)).1.success = true ∧
    (editCampaignUpload [(DbField.name, "name")] "u" "c" "name\nAlice"
        DbOutcome.ok (WebhookOutcome.badStatus 500)).1.leadsCount
      = some (processCSVWithMapping [(DbField.name, "name")] "name\nAlice").leads.length ∧
    ∃ detail, webhookFailureDetail (WebhookOutcome.badStatus 500) = some detail ∧
      (editCampaignUpload [(DbField.name, "name")] "u" "c" "name\nAlice"
          DbOutcome.ok (WebhookOutcome.badStatus 500)).1.errors
        = ["Note: Leads saved to database successfully, but automation webhook failed.",
           detail] :=
  c4_webhook_nonfatal [(DbField.name, "name")] "u" "c" "name\nAlice"
    (WebhookOutcome.badStatus 500) (by decide) (by decide)

/-- C5: no retry/backoff beyond a single webhook call: each upload performs
at most one webhook POST (exactly one when leads exist and the insert
succeeded, never more, regardless of the webhook outcome), the manual
channels-engine trigger performs exactly one, and its outcome is reported
as success exactly when the POST returned ok. -/
theorem c5_single_webhook_call (mapping : ColumnMapping) (uid cid t : String)
    (db : DbOutcome) (wh wh2 : WebhookOutcome) :
    countWebhookPosts (editCampaignUpload mapping uid cid t db wh).2
      = (if (processCSVWithMapping mapping t).leads.isEmpty then 0
         else match db with
              | DbOutcome.ok => 1
              | DbOutcome.err _ => 0) ∧
    countWebhookPosts (editCampaignUpload mapping uid cid t db wh).2 ≤ 1 ∧
    countWebhookPosts (triggerChannelsEngine uid cid wh2).2 = 1 ∧
    ((triggerChannelsEngine uid cid wh2).1.success = true ↔ wh2 = WebhookOutcome.ok) := by
  have hcount : countWebhookPosts (editCampaignUpload mapping uid cid t db wh).2
      = (if (processCSVWithMapping mapping t).leads.isEmpty then 0
         else match db with
              | DbOutcome.ok => 1
              | DbOutcome.err _ => 0) := by
    unfold editCampaignUpload
    cases hq : (processCSVWithMapping mapping t).leads.isEmpty <;>
      cases db <;> simp [hq, countWebhookPosts]
  refine ⟨hcount, ?_, ?_, ?_⟩
  · rw [hcount]
    cases hq : (processCSVWithMapping mapping t).leads.isEmpty <;> cases db <;> simp
  · cases wh2 <;> rfl
  · cases wh2 <;> simp [triggerChannelsEngine]

/-- C8: the sequence step-numbering invariant: the initial single step is
numbered 1, `addStep` appends step `n + 1` preserving 1..n+1, and
`removeStep` at any index renumbers the remainder back to 1..m. -/
theorem c8_step_numbering_invariant (steps : List SequenceStep) (index : Nat)
    (h : wellNumbered steps) :
    wellNumbered initialSteps ∧
    wellNumbered (addStep steps) ∧
    wellNumbered (removeStep steps index) := by
  refine ⟨by decide, ?_, ?_⟩
  · unfold wellNumbered addStep
    unfold wellNumbered at h
    rw [stepNumbers, List.map_append, ← stepNumbers, h]
    simp [stepNumbers, List.length_append]
    rw [List.range'_concat]
    simp [Nat.add_comm]
  · unfold wellNumbered
    rw [removeStep, renumberFrom_numbers, renumberFrom_length]

/-- Witness for C8 starting from the initial state. -/
theorem c8_step_numbering_invariant_witness :
    wellNumbered (addStep initialSteps) ∧ wellNumbered (removeStep initialSteps 0) :=
  ⟨(c8_step_numbering_invariant initialSteps 0 (by decide)).2.1,
   (c8_step_numbering_invariant initialSteps 0 (by decide)).2.2⟩

/-- C9: `saveSequence` has replace semantics: after a successful save the
stored rows of the campaign are exactly the current steps (conditions
normalised to null when absent), after a failed insert the campaign has no
stored steps (the deleted prior state is not restored), and rows of other
campaigns are untouched either way. -/
theorem c9_save_sequence_replace (table : List SequenceRow) (cid : String)
    (steps : List SequenceStep) :
    (saveSequence table cid steps true).filter (fun r => r.campaign_id = cid)
      = steps.map (stepToRow cid) ∧
    (saveSequence table cid steps false).filter (fun r => r.campaign_id = cid) = [] ∧
    (saveSequence table cid steps true).filter (fun r => r.campaign_id ≠ cid)
      = table.filter (fun r => r.campaign_id ≠ cid) ∧
    (saveSequence table cid steps false).filter (fun r => r.campaign_id ≠ cid)
      = table.filter (fun r => r.campaign_id ≠ cid) := by
  have hdel : (table.filter (fun r => r.campaign_id ≠ cid)).filter
      (fun r => r.campaign_id = cid) = [] := by
    induction table with
    | nil => rfl
    | cons r rs ih => by_cases hr : r.campaign_id = cid <;> simp [hr, ih]
  have hmap : (steps.map (stepToRow cid)).filter (fun r => r.campaign_id = cid)
      = steps.map (stepToRow cid) := by
    induction steps with
    | nil => rfl
    | cons s ss ih => simp [stepToRow, ih]
  have hmapne : (steps.map (stepToRow cid)).filter (fun r => r.campaign_id ≠ cid) = [] := by
    induction steps with
    | nil => rfl
    | cons s ss ih => simp [stepToRow, ih]
  have hidem : (table.filter (fun r => r.campaign_id ≠ cid)).filter
      (fun r => r.campaign_id ≠ cid) = table.filter (fun r => r.campaign_id ≠ cid) := by
    induction table with
    | nil => rfl
    | cons r rs ih => by_cases hr : r.campaign_id = cid <;> simp [hr, ih]
  refine ⟨?_, ?_, ?_, ?_⟩
  · simp [saveSequence, List.filter_append, hdel, hmap]
  · simp [saveSequence, hdel]
  · simp [saveSequence, List.filter_append, hidem, hmapne]
    intro s _
    rfl
  · simp [saveSequence, hidem]

/-- C7 counterexample: `EditCampaign.handleSubmit`'s success path updates
the `campaigns` row and then only sets a banner — it contains a mutation
and no re-fetch, contradicting the claim that every successful mutation is
followed by a re-fetch. -/
theorem c7_counterexample_submit_no_refetch :
    editSubmitSuccessTrace = [UIEvent.dbMutation "campaigns" "update", UIEvent.banner true] ∧
    (editSubmitSuccessTrace.filter isMutationB).length = 1 ∧
    mutationFollowedByRefetch editSubmitSuccessTrace = false ∧
    mutationFollowedByRefetch editPublishSuccessTrace = false := by
  decide

/-- C7 (amended): campaign create, campaign delete, lead upload (in
UploadLeadsTab) and lead delete each re-fetch their component's list from
the backend after a successful mutation; EditCampaign's campaign update
and publish do not re-fetch — update only shows a banner and publish
patches the local campaign state. -/
theorem c7_amended_refetch_pattern :
    mutationFollowedByRefetch createCampaignSuccessTrace = true ∧
    mutationFollowedByRefetch deleteCampaignSuccessTrace = true ∧
    mutationFollowedByRefetch uploadLeadsSuccessTrace = true ∧
    mutationFollowedByRefetch deleteLeadSuccessTrace = true ∧
    mutationFollowedByRefetch editSubmitSuccessTrace = false ∧
    (editPublishSuccessTrace.filter isRefetchB).length = 0 ∧
    UIEvent.localUpdate "campaign.status" ∈ editPublishSuccessTrace := by
  decide

end Sao
